import Mathlib

/-!
Shallow embedding of the `podman machine bootc vmrun` disk cache
(`cmd/podman/machine/bootc/vmrun.go`) and of the applehv virtualization
provider (`pkg/machine/applehv`): device composition, machine listing and
transient VM spawning.  External effects (filesystem calls, subprocesses)
are modelled by explicit environments recording which call succeeds, and
results record the externally observable state (files left behind, events
emitted, values returned).
-/

namespace Bootc

/-- Modelled from Go `strings.ReplaceAll(s, old, new)` specialized to the
single-character pattern used at the call site
(`strings.ReplaceAll(imageName, "/", "_")`): the left-to-right scan over
non-overlapping occurrences of a one-character pattern replaces exactly the
occurrences of that character. -/
def replaceAllChar (s : List Char) (oldC newC : Char) : List Char :=
  match s with
  | [] => []
  | c :: rest =>
    if c = oldC then newC :: replaceAllChar rest oldC newC
    else c :: replaceAllChar rest oldC newC

/-- Embeds `diskImageName := strings.ReplaceAll(imageName, "/", "_")`
(vmrun.go line 179). -/
def diskImageName (imageName : String) : String :=
  ⟨replaceAllChar imageName.data '/' '_'⟩

/-- Embeds `diskPath := filepath.Join(ctx.cachedir, diskImageName)`
(vmrun.go line 180). -/
def gocPath (cachedir imageName : String) : String :=
  cachedir ++ "/" ++ diskImageName imageName

/-- State of the `user.bootc.meta` extended attribute on a cache file:
absent or unreadable (`Fgetxattr` errors), readable but not valid JSON for
`diskFromContainerMeta`, or a well-formed serialized record carrying a
digest. -/
inductive XattrState where
  | missing : XattrState
  | malformed : XattrState
  | meta (digest : String) : XattrState
deriving DecidableEq

/-- A file at the cache path, characterized by its embedded metadata. -/
structure CacheFile where
  xattr : XattrState
deriving DecidableEq

/-- Which step of `createDiskImage` failed. -/
inductive BuildErr where
  | tempDiskCreate : BuildErr
  | ftruncate : BuildErr
  | tempEntryCreate : BuildErr
  | copyEntry : BuildErr
  | chmodEntry : BuildErr
  | subprocess : BuildErr
  | setxattr : BuildErr
  | renameFile : BuildErr
deriving DecidableEq

/-- Success or failure of each external call made by `createDiskImage`
(vmrun.go lines 118-176), in program order. -/
structure BuildEnv where
  tempDiskCreateOk : Bool
  ftruncateOk : Bool
  tempEntryCreateOk : Bool
  copyOk : Bool
  chmodOk : Bool
  subprocessOk : Bool
  setxattrOk : Bool
  renameOk : Bool
deriving DecidableEq

/-- Events observable on the publication path of `createDiskImage`. -/
inductive BuildEvent where
  | setxattr (digest : String) : BuildEvent
  | renameToTarget : BuildEvent
deriving DecidableEq

/-- Observable outcome of one `createDiskImage` call: the returned value,
whether the temporary disk / temporary entrypoint files are still present
at their temporary names when the call returns, the file at the target
path after the call, the successful publication events in order, and
whether the image-build subprocess ran. -/
structure BuildResult where
  ret : Except BuildErr String
  tempDiskLeft : Bool
  tempEntryLeft : Bool
  fileAfter : Option CacheFile
  events : List BuildEvent
  subprocessRan : Bool

/-- Embeds `createDiskImage` (vmrun.go lines 118-176).  Control flow is
translated step by step: temp-disk creation, `Ftruncate` (note: its error
return precedes the installation of the `doCleanupDisk` deferred removal,
line 123 vs. lines 126-131), cleanup guard, temp-entrypoint creation with
its own unconditional deferred removal (line 137), copy of the embedded
entrypoint, chmod, the podman-run subprocess, then `doCleanupDisk = false`
(line 161), `Fsetxattr` of the serialized `{imageDigest}` record and the
final `os.Rename` onto the target path. -/
def createDiskImage (env : BuildEnv) (imageDigest targetPath : String)
    (target : Option CacheFile) : BuildResult :=
  if env.tempDiskCreateOk = false then
    ⟨.error .tempDiskCreate, false, false, target, [], false⟩
  else if env.ftruncateOk = false then
    ⟨.error .ftruncate, true, false, target, [], false⟩
  else if env.tempEntryCreateOk = false then
    ⟨.error .tempEntryCreate, false, false, target, [], false⟩
  else if env.copyOk = false then
    ⟨.error .copyEntry, false, false, target, [], false⟩
  else if env.chmodOk = false then
    ⟨.error .chmodEntry, false, false, target, [], false⟩
  else if env.subprocessOk = false then
    ⟨.error .subprocess, false, false, target, [], true⟩
  else if env.setxattrOk = false then
    ⟨.error .setxattr, true, false, target, [], true⟩
  else if env.renameOk = false then
    ⟨.error .renameFile, true, false, target, [.setxattr imageDigest], true⟩
  else
    ⟨.ok targetPath, false, false, some ⟨.meta imageDigest⟩,
      [.setxattr imageDigest, .renameToTarget], true⟩

/-- Errors surfaced by `getOrCreateDiskImage`: a non-`ENOENT` failure of
`os.Open`, or an error propagated from `createDiskImage`. -/
inductive GOCErr where
  | openFail : GOCErr
  | build (e : BuildErr) : GOCErr
deriving DecidableEq

/-- Environment of `getOrCreateDiskImage`: whether `os.Open` on an
existing cache file succeeds, plus the build environment used if
`createDiskImage` is invoked. -/
structure GOCEnv where
  openOk : Bool
  build : BuildEnv
deriving DecidableEq

/-- Observable outcome of one `getOrCreateDiskImage` call. -/
structure GOCResult where
  ret : Except GOCErr String
  fileAfter : Option CacheFile
  rebuildInvoked : Bool
  removedBefore : Bool
  subprocessRan : Bool

/-- Lifts a `createDiskImage` outcome into a `getOrCreateDiskImage`
outcome, recording whether `os.Remove(diskPath)` ran before the rebuild. -/
def liftBuild (r : BuildResult) (removed : Bool) : GOCResult :=
  ⟨Except.mapError GOCErr.build r.ret, r.fileAfter, true, removed,
    r.subprocessRan⟩

/-- Embeds `getOrCreateDiskImage` (vmrun.go lines 178-208).  When the
cache file is absent, `os.Open` fails with `ENOENT` (not returned), the
`Fgetxattr` on the invalid descriptor fails, `os.Remove` is attempted and
the disk is rebuilt.  When the file exists but `os.Open` fails otherwise,
the error is returned.  When `Fgetxattr` fails (metadata missing or
unreadable) the file is removed and rebuilt; when `json.Unmarshal` fails
the file is rebuilt with no prior removal; when the parsed digest equals
the requested one the existing path is returned; otherwise the disk is
rebuilt over the existing file. -/
def getOrCreateDiskImage (env : GOCEnv) (imageName imageDigest cachedir : String)
    (cache : Option CacheFile) : GOCResult :=
  let diskPath := gocPath cachedir imageName
  match cache with
  | none => liftBuild (createDiskImage env.build imageDigest diskPath none) true
  | some f =>
    if env.openOk = false then ⟨.error .openFail, some f, false, false, false⟩
    else
      match f.xattr with
      | .missing =>
        liftBuild (createDiskImage env.build imageDigest diskPath none) true
      | .malformed =>
        liftBuild (createDiskImage env.build imageDigest diskPath (some f)) false
      | .meta d =>
        if d = imageDigest then ⟨.ok diskPath, some f, false, false, false⟩
        else liftBuild (createDiskImage env.build imageDigest diskPath (some f)) false

/-- Embeds the `optionsData` flag struct of the `vmrun` command
(vmrun.go lines 67-70). -/
structure OptionsData where
  bootcLogLevel : String
  vmDebug : Bool
deriving DecidableEq

/-- Embeds `machine.SpawnTransientOpts` as used by vmrun.go lines 276-282
and applehv `SpawnTransient`. -/
structure SpawnTransientOpts where
  cpus : Nat
  memoryMiB : Nat
  disk : String
  gui : Bool
  vmDebug : Bool
deriving DecidableEq

/-- Observable actions of the tail of `vmrun` (vmrun.go lines 257-284)
once `getOrCreateDiskImage` has returned the cached disk path `disk` and
`os.CreateTemp` has produced the clone file name `clone`: the path printed,
the `cp -fc` invocation (source and destination), the deferred removal of
the clone, and the options handed to `SpawnTransient`. -/
structure VmrunTail where
  printedPath : String
  cloneCreated : Bool
  cloneSrc : String
  cloneDest : String
  cloneRemovedAtExit : Bool
  spawnOpts : SpawnTransientOpts

/-- Embeds the tail of `vmrun` (vmrun.go lines 257-284): print the disk
path, clone the cache disk with `cp -fc disk tempf` (removal of `tempf`
deferred), then build `SpawnTransientOpts{Cpus: 2, MemoryMiB: 2048,
Disk: disk, Gui: true, VMDebug: options.vmDebug}` and call
`SpawnTransient`. -/
def vmrunTail (o : OptionsData) (disk clone : String) : VmrunTail :=
  { printedPath := disk
    cloneCreated := true
    cloneSrc := disk
    cloneDest := clone
    cloneRemovedAtExit := true
    spawnOpts :=
      { cpus := 2, memoryMiB := 2048, disk := disk, gui := true,
        vmDebug := o.vmDebug } }

end Bootc

namespace AppleHV

/-- Virtio device descriptors built by the applehv backend
(pkg/machine/applehv/vfkit.go and `SpawnTransient`), one constructor per
`vfConfig` constructor used there. -/
inductive VirtioDevice where
  | rng : VirtioDevice
  | blk (path : String) : VirtioDevice
  | serialFile (logPath : String) : VirtioDevice
  | serialStdio : VirtioDevice
  | vsockDev (port : Nat) (path : String) (listen : Bool) : VirtioDevice
  | gpu : VirtioDevice
  | inputPointing : VirtioDevice
  | inputKeyboard : VirtioDevice
deriving DecidableEq

/-- Embeds `getBasicDevices` (vfkit.go lines 11-19): a single
entropy-source device. -/
def getBasicDevices : List VirtioDevice := [.rng]

/-- Embeds `getDebugDevices` (vfkit.go lines 46-61): graphics, pointing
device, keyboard, in that order. -/
def getDebugDevices : List VirtioDevice := [.gpu, .inputPointing, .inputKeyboard]

/-- Embeds `getDefaultDevices` (vfkit.go lines 22-44): basic devices plus
block device, log serial device and readiness vsock channel at port 1025. -/
def getDefaultDevices (imagePath logPath readyPath : String) : List VirtioDevice :=
  getBasicDevices ++ [.blk imagePath, .serialFile logPath, .vsockDev 1025 readyPath true]

/-- Embeds the device-list construction inside applehv `SpawnTransient`
(part_000 lines 188-213): basic devices, then the transient disk block
device; in GUI mode the debug devices are appended, otherwise a serial
console bound to the host standard streams. -/
def spawnTransientDevices (opts : Bootc.SpawnTransientOpts) : List VirtioDevice :=
  let devices := getBasicDevices ++ [.blk opts.disk]
  if opts.gui then devices ++ getDebugDevices
  else devices ++ [.serialStdio]

/-- Which setup step of applehv `SpawnTransient` failed. -/
inductive SpawnErr where
  | config : SpawnErr
  | mkdirTemp : SpawnErr
  | mkdirEfi : SpawnErr
  | findVfkit : SpawnErr
  | cmdBuild : SpawnErr
deriving DecidableEq

/-- Outcome of `cmd.Run()` for the vfkit process: the process failed to
start, or it started and exited with the given code. -/
inductive RunOutcome where
  | startFailed : RunOutcome
  | exited (code : Nat) : RunOutcome
deriving DecidableEq

/-- Success or failure of each external call made by applehv
`SpawnTransient` (part_000 lines 163-240), in program order, and the
hypervisor process outcome. -/
structure SpawnEnv where
  configOk : Bool
  mkdirTempOk : Bool
  mkdirEfiOk : Bool
  findVfkitOk : Bool
  cmdOk : Bool
  run : RunOutcome
deriving DecidableEq

/-- Observable outcome of one applehv `SpawnTransient` call: the returned
value, the device list attached to the VM configuration, the extra
command-line arguments appended after `vmconfig.Cmd`, whether the call
blocked until the hypervisor process exited, and whether a `cmd.Run`
error was logged. -/
structure SpawnResult where
  ret : Except SpawnErr Unit
  devices : List VirtioDevice
  extraArgs : List String
  waitedForExit : Bool
  loggedRunError : Bool

/-- Embeds applehv `SpawnTransient` (part_000 lines 163-240): config
lookup, temp dir and efi dir creation, vfkit helper lookup, device-list
construction, `vmconfig.Cmd`, then the appended arguments
`--restful-uri=none://` (disabling the HTTP API), `--gui` when requested
and `--log-level debug` when VM debugging is requested; finally
`cmd.Run()` is waited for synchronously, and a non-nil error from it is
only logged — the function returns nil regardless. -/
def spawnTransient (env : SpawnEnv) (opts : Bootc.SpawnTransientOpts) : SpawnResult :=
  if env.configOk = false then ⟨.error .config, [], [], false, false⟩
  else if env.mkdirTempOk = false then ⟨.error .mkdirTemp, [], [], false, false⟩
  else if env.mkdirEfiOk = false then ⟨.error .mkdirEfi, [], [], false, false⟩
  else if env.findVfkitOk = false then ⟨.error .findVfkit, [], [], false, false⟩
  else
    let devices := spawnTransientDevices opts
    if env.cmdOk = false then ⟨.error .cmdBuild, devices, [], false, false⟩
    else
      let args :=
        ["--restful-uri=none://"] ++ (if opts.gui then ["--gui"] else []) ++
          (if opts.vmDebug then ["--log-level", "debug"] else [])
      match env.run with
      | .startFailed => ⟨.ok (), devices, args, false, true⟩
      | .exited code => ⟨.ok (), devices, args, true, code != 0⟩

/-- Persisted machine states (`define.Stopped` etc.) as observed through
the applehv `List` implementation. -/
inductive VMState where
  | stopped : VMState
  | starting : VMState
  | running : VMState
deriving DecidableEq

/-- Result of probing one machine's live state via `mm.Vfkit.State()`:
a state, a connection-refused error (`unix.ECONNREFUSED`), or any other
error. -/
inductive ProbeResult where
  | ok (s : VMState) : ProbeResult
  | connRefused : ProbeResult
  | otherErr : ProbeResult
deriving DecidableEq

/-- A persisted applehv machine record together with the outcome its
control-channel probe would produce. -/
structure MacMachine where
  name : String
  probe : ProbeResult
deriving DecidableEq

/-- Error returned by `List` when a probe fails with something other than
connection-refused. -/
inductive ListErr where
  | probeFailed : ListErr
deriving DecidableEq

/-- The fields of `machine.ListResponse` that the probe determines
(part_000 lines 93-107). -/
structure ListResponse where
  name : String
  running : Bool
  starting : Bool
deriving DecidableEq

/-- Embeds the state-resolution step of `List` (part_000 lines 84-91):
a probe error equal to `ECONNREFUSED` is mapped to `Stopped`; any other
probe error is returned. -/
def resolveState (m : MacMachine) : Except ListErr VMState :=
  match m.probe with
  | .ok s => .ok s
  | .connRefused => .ok .stopped
  | .otherErr => .error .probeFailed

/-- The listing entry built for one machine from its resolved state
(part_000 lines 93-107): `Running` and `Starting` compare the state. -/
def responseOf (m : MacMachine) (s : VMState) : ListResponse :=
  ⟨m.name, decide (s = .running), decide (s = .starting)⟩

/-- Embeds the loop of applehv `List` (part_000 lines 83-110): machines
are probed in order; the first fatal probe error aborts the listing with
that error, otherwise each machine contributes one response in order. -/
def listMachines : List MacMachine → Except ListErr (List ListResponse)
  | [] => .ok []
  | m :: rest =>
    match resolveState m with
    | .error e => .error e
    | .ok s =>
      match listMachines rest with
      | .error e => .error e
      | .ok rs => .ok (responseOf m s :: rs)

/-- The state `List` effectively attributes to a machine whose probe does
not abort the listing. -/
def effectiveState (m : MacMachine) : VMState :=
  match m.probe with
  | .ok s => s
  | _ => .stopped

end AppleHV

namespace Bootc

/-! Helper lemmas about the disk cache. -/

lemma replaceAllChar_eq_map (s : List Char) (a b : Char) :
    replaceAllChar s a b = s.map (fun c => if c = a then b else c) := by
  induction s with
  | nil => rfl
  | cons c rest ih =>
    simp only [replaceAllChar, List.map_cons, ih]
    by_cases h : c = a <;> simp [h]

lemma liftBuild_ret_ok (r : BuildResult) (rem : Bool) (p : String) :
    (liftBuild r rem).ret = .ok p ↔ r.ret = .ok p := by
  cases hr : r.ret <;> simp [liftBuild, Except.mapError, hr]

lemma liftBuild_ret_error (r : BuildResult) (rem : Bool) (e : GOCErr) :
    (liftBuild r rem).ret = .error e ↔ ∃ be, e = .build be ∧ r.ret = .error be := by
  cases hr : r.ret with
  | ok a => simp [liftBuild, Except.mapError, hr]
  | error a => simp [liftBuild, Except.mapError, hr, eq_comm]

lemma createDiskImage_ok (env : BuildEnv) (d p : String) (t : Option CacheFile)
    (q : String) (h : (createDiskImage env d p t).ret = .ok q) :
    q = p ∧ (createDiskImage env d p t).fileAfter = some ⟨.meta d⟩ ∧
      (createDiskImage env d p t).events = [.setxattr d, .renameToTarget] ∧
      (createDiskImage env d p t).subprocessRan = true := by
  unfold createDiskImage at *
  split_ifs at h ⊢
  simp_all

lemma createDiskImage_error (env : BuildEnv) (d p : String) (t : Option CacheFile)
    (e : BuildErr) (h : (createDiskImage env d p t).ret = .error e) :
    (createDiskImage env d p t).fileAfter = t := by
  unfold createDiskImage at *
  split_ifs at h ⊢ <;> simp_all

lemma goc_ok (env : GOCEnv) (name digest cachedir : String)
    (cache : Option CacheFile) (p : String)
    (h : (getOrCreateDiskImage env name digest cachedir cache).ret = .ok p) :
    p = gocPath cachedir name ∧
      (getOrCreateDiskImage env name digest cachedir cache).fileAfter =
        some ⟨.meta digest⟩ := by
  unfold getOrCreateDiskImage at *
  cases cache with
  | none =>
    simp only [liftBuild_ret_ok] at h
    obtain ⟨hq, hfa, -, -⟩ := createDiskImage_ok _ _ _ _ _ h
    simp [liftBuild, hq, hfa]
  | some f =>
    obtain ⟨x⟩ := f
    cases hopen : env.openOk with
    | false => simp [hopen] at h
    | true =>
      simp only [hopen] at h ⊢
      simp only [Bool.true_eq_false, if_false] at h ⊢
      cases x with
      | missing =>
        simp only [liftBuild_ret_ok] at h
        obtain ⟨hq, hfa, -, -⟩ := createDiskImage_ok _ _ _ _ _ h
        simp [liftBuild, hq, hfa]
      | malformed =>
        simp only [liftBuild_ret_ok] at h
        obtain ⟨hq, hfa, -, -⟩ := createDiskImage_ok _ _ _ _ _ h
        simp [liftBuild, hq, hfa]
      | meta d =>
        by_cases hd : d = digest
        · subst hd
          simp only [if_pos rfl] at h ⊢
          exact ⟨(Except.ok.inj h).symm, rfl⟩
        · simp only [if_neg hd] at h ⊢
          simp only [liftBuild_ret_ok] at h
          obtain ⟨hq, hfa, -, -⟩ := createDiskImage_ok _ _ _ _ _ h
          simp [liftBuild, hq, hfa]

/-! Claim theorems about the disk cache and the vmrun flow. -/

/-- C1: the claim says the disk path handed to the provider's
`SpawnTransient` is the freshly created private clone; the code instead
passes the cache's own path (`Disk: disk` at vmrun.go line 279) while the
clone written by `cp -fc` is never used and is removed on exit.  This
theorem evaluates the embedded vmrun tail at a concrete run and shows the
spawned disk equals the cache path and differs from the clone path. -/
theorem vmrun_spawns_cache_not_clone :
    (vmrunTail ⟨"", false⟩ "/data/bootc-vmrun/a_b:t"
        "/data/bootc-vmrun/bootc-vmrun123").spawnOpts.disk =
      "/data/bootc-vmrun/a_b:t" ∧
    (vmrunTail ⟨"", false⟩ "/data/bootc-vmrun/a_b:t"
        "/data/bootc-vmrun/bootc-vmrun123").cloneDest =
      "/data/bootc-vmrun/bootc-vmrun123" ∧
    (vmrunTail ⟨"", false⟩ "/data/bootc-vmrun/a_b:t"
        "/data/bootc-vmrun/bootc-vmrun123").spawnOpts.disk ≠
      (vmrunTail ⟨"", false⟩ "/data/bootc-vmrun/a_b:t"
        "/data/bootc-vmrun/bootc-vmrun123").cloneDest ∧
    (vmrunTail ⟨"", false⟩ "/data/bootc-vmrun/a_b:t"
        "/data/bootc-vmrun/bootc-vmrun123").cloneRemovedAtExit = true := by
  refine ⟨rfl, rfl, ?_, rfl⟩
  decide

/-- C2 counterexample: when the embedded metadata fails to parse and the
rebuild's subprocess fails, `getOrCreateDiskImage` never deletes the stale
file — no `os.Remove` runs before the rebuild and the malformed file is
still at the cache path when the call returns — refuting the claim that a
metadata defect always deletes the stale file. -/
theorem getOrCreateDiskImage_parse_fail_no_delete :
    (getOrCreateDiskImage ⟨true, ⟨true, true, true, true, true, false, true, true⟩⟩
        "quay.io/exampleos/someos:latest" "sha256:aaa" "/cache"
        (some ⟨.malformed⟩)).removedBefore = false ∧
    (getOrCreateDiskImage ⟨true, ⟨true, true, true, true, true, false, true, true⟩⟩
        "quay.io/exampleos/someos:latest" "sha256:aaa" "/cache"
        (some ⟨.malformed⟩)).fileAfter = some ⟨.malformed⟩ ∧
    (getOrCreateDiskImage ⟨true, ⟨true, true, true, true, true, false, true, true⟩⟩
        "quay.io/exampleos/someos:latest" "sha256:aaa" "/cache"
        (some ⟨.malformed⟩)).rebuildInvoked = true ∧
    (getOrCreateDiskImage ⟨true, ⟨true, true, true, true, true, false, true, true⟩⟩
        "quay.io/exampleos/someos:latest" "sha256:aaa" "/cache"
        (some ⟨.malformed⟩)).ret = .error (.build .subprocess) :=
  ⟨rfl, rfl, rfl, rfl⟩

/-- C2 (amended): when the cache file opens and its embedded metadata is
missing/unreadable, the stale file is deleted and a rebuild is performed;
when the metadata fails to parse, a rebuild is performed directly without
a prior delete and the stale file persists across a failed rebuild; in
every such case the metadata defect itself is never surfaced — any
returned error is a build error, and a successful rebuild leaves the file
carrying the new digest. -/
theorem getOrCreateDiskImage_defect_recovery
    (env : GOCEnv) (name digest cachedir : String) (f : CacheFile)
    (hopen : env.openOk = true)
    (hdef : f.xattr = .missing ∨ f.xattr = .malformed) :
    (getOrCreateDiskImage env name digest cachedir (some f)).rebuildInvoked = true ∧
    (f.xattr = .missing →
      (getOrCreateDiskImage env name digest cachedir (some f)).removedBefore = true) ∧
    (f.xattr = .malformed →
      (getOrCreateDiskImage env name digest cachedir (some f)).removedBefore = false ∧
      ∀ e, (getOrCreateDiskImage env name digest cachedir (some f)).ret = .error e →
        (getOrCreateDiskImage env name digest cachedir (some f)).fileAfter = some f) ∧
    (∀ e, (getOrCreateDiskImage env name digest cachedir (some f)).ret = .error e →
      ∃ be, e = .build be) ∧
    (∀ q, (getOrCreateDiskImage env name digest cachedir (some f)).ret = .ok q →
      (getOrCreateDiskImage env name digest cachedir (some f)).fileAfter =
        some ⟨.meta digest⟩) := by
  obtain ⟨x⟩ := f
  unfold getOrCreateDiskImage
  simp only [hopen, Bool.true_eq_false, if_false]
  cases x with
  | missing =>
    refine ⟨rfl, fun _ => rfl, fun hc => by simp at hc, ?_, ?_⟩
    · intro e he
      obtain ⟨be, hbe, -⟩ := (liftBuild_ret_error _ _ _).mp he
      exact ⟨be, hbe⟩
    · intro q hq
      obtain ⟨-, hfa, -, -⟩ := createDiskImage_ok _ _ _ _ _ ((liftBuild_ret_ok _ _ _).mp hq)
      simp [liftBuild, hfa]
  | malformed =>
    refine ⟨rfl, fun hc => by simp at hc, fun _ => ⟨rfl, ?_⟩, ?_, ?_⟩
    · intro e he
      obtain ⟨be, -, hbe⟩ := (liftBuild_ret_error _ _ _).mp he
      have hfa := createDiskImage_error _ _ _ _ _ hbe
      simp [liftBuild, hfa]
    · intro e he
      obtain ⟨be, hbe, -⟩ := (liftBuild_ret_error _ _ _).mp he
      exact ⟨be, hbe⟩
    · intro q hq
      obtain ⟨-, hfa, -, -⟩ := createDiskImage_ok _ _ _ _ _ ((liftBuild_ret_ok _ _ _).mp hq)
      simp [liftBuild, hfa]
  | meta d =>
    simp at hdef

/-- C2 witness: the amended theorem applied at a concrete defective cache
entry (missing metadata) with an all-successful rebuild environment. -/
theorem getOrCreateDiskImage_defect_recovery_witness :
    (getOrCreateDiskImage ⟨true, ⟨true, true, true, true, true, true, true, true⟩⟩
        "quay.io/exampleos/someos:latest" "sha256:aaa" "/cache"
        (some ⟨.missing⟩)).rebuildInvoked = true ∧
    (getOrCreateDiskImage ⟨true, ⟨true, true, true, true, true, true, true, true⟩⟩
        "quay.io/exampleos/someos:latest" "sha256:aaa" "/cache"
        (some ⟨.missing⟩)).removedBefore = true ∧
    (getOrCreateDiskImage ⟨true, ⟨true, true, true, true, true, true, true, true⟩⟩
        "quay.io/exampleos/someos:latest" "sha256:aaa" "/cache"
        (some ⟨.missing⟩)).fileAfter = some ⟨.meta "sha256:aaa"⟩ := by
  have h := getOrCreateDiskImage_defect_recovery
    ⟨true, ⟨true, true, true, true, true, true, true, true⟩⟩
    "quay.io/exampleos/someos:latest" "sha256:aaa" "/cache" ⟨.missing⟩
    rfl (Or.inl rfl)
  exact ⟨h.1, h.2.1 rfl, h.2.2.2.2 "/cache/quay.io_exampleos_someos:latest" rfl⟩

/-- C3 counterexample: when `Ftruncate` fails, `createDiskImage` returns
an error although the deferred removal of the temporary disk has not yet
been installed (vmrun.go line 124 precedes lines 126-131), so the
temporary disk file is left behind — refuting the claim that every
non-publish return path removes all temporary build artifacts. -/
theorem createDiskImage_ftruncate_leak :
    (createDiskImage ⟨true, false, true, true, true, true, true, true⟩
        "sha256:aaa" "/cache/a_b:t" none).ret = .error .ftruncate ∧
    (createDiskImage ⟨true, false, true, true, true, true, true, true⟩
        "sha256:aaa" "/cache/a_b:t" none).tempDiskLeft = true :=
  ⟨rfl, rfl⟩

/-- C3 (amended): on every return path of `createDiskImage` the temporary
entrypoint file has been removed; the temporary disk file is removed on
every return path except the error returns at the `Ftruncate` step (before
the cleanup guard is installed) and those after subprocess success where
the cleanup guard has been disarmed (`Fsetxattr` or rename failure), which
leak it; a successful publish renames it away. -/
theorem createDiskImage_cleanup (env : BuildEnv) (d p : String)
    (t : Option CacheFile) :
    (createDiskImage env d p t).tempEntryLeft = false ∧
    ((createDiskImage env d p t).tempDiskLeft = true ↔
      (env.tempDiskCreateOk = true ∧
        (env.ftruncateOk = false ∨
          (env.tempEntryCreateOk = true ∧ env.copyOk = true ∧
            env.chmodOk = true ∧ env.subprocessOk = true ∧
            (env.setxattrOk = false ∨ env.renameOk = false))))) := by
  obtain ⟨a, b, c, d', e, f, g, h⟩ := env
  cases a <;> cases b <;> cases c <;> cases d' <;> cases e <;> cases f <;>
    cases g <;> cases h <;> simp [createDiskImage]

/-- C4: if the cache file exists, opens, and its embedded metadata parses
to the requested digest, `getOrCreateDiskImage` returns the cache path
with no rebuild and no subprocess; and whenever a first call succeeds, a
second call on the resulting cache state with the same image and digest
runs no subprocess and returns the identical path, so two consecutive
calls with an unchanged digest run the build subprocess at most once. -/
theorem getOrCreateDiskImage_idempotent
    (env₁ env₂ : GOCEnv) (name digest cachedir : String)
    (cache : Option CacheFile) (p : String)
    (h₁ : (getOrCreateDiskImage env₁ name digest cachedir cache).ret = .ok p)
    (hopen₂ : env₂.openOk = true) :
    (∀ f, cache = some f → f.xattr = .meta digest → env₁.openOk = true →
      (getOrCreateDiskImage env₁ name digest cachedir cache).subprocessRan = false ∧
      (getOrCreateDiskImage env₁ name digest cachedir cache).rebuildInvoked = false ∧
      p = gocPath cachedir name) ∧
    (getOrCreateDiskImage env₂ name digest cachedir
      (getOrCreateDiskImage env₁ name digest cachedir cache).fileAfter).ret = .ok p ∧
    (getOrCreateDiskImage env₂ name digest cachedir
      (getOrCreateDiskImage env₁ name digest cachedir cache).fileAfter).subprocessRan
        = false ∧
    (getOrCreateDiskImage env₂ name digest cachedir
      (getOrCreateDiskImage env₁ name digest cachedir cache).fileAfter).rebuildInvoked
        = false := by
  obtain ⟨hp, hfa⟩ := goc_ok _ _ _ _ _ _ h₁
  refine ⟨?_, ?_⟩
  · rintro ⟨x⟩ rfl hx hopen₁
    simp only [CacheFile.mk.injEq] at hx
    subst hx
    unfold getOrCreateDiskImage
    simp [hopen₁, hp]
  · rw [hfa]
    unfold getOrCreateDiskImage
    simp only [hopen₂, Bool.true_eq_false, if_false, if_pos rfl]
    subst hp
    exact ⟨rfl, rfl, rfl⟩

/-- C4 witness: the idempotence theorem applied to an initially empty
cache with an all-successful build environment: the first call builds and
the second call returns the same path with no subprocess. -/
theorem getOrCreateDiskImage_idempotent_witness :
    (getOrCreateDiskImage ⟨true, ⟨true, true, true, true, true, true, true, true⟩⟩
        "quay.io/exampleos/someos:latest" "sha256:aaa" "/cache"
        (getOrCreateDiskImage ⟨true, ⟨true, true, true, true, true, true, true, true⟩⟩
          "quay.io/exampleos/someos:latest" "sha256:aaa" "/cache" none).fileAfter).ret =
      .ok "/cache/quay.io_exampleos_someos:latest" ∧
    (getOrCreateDiskImage ⟨true, ⟨true, true, true, true, true, true, true, true⟩⟩
        "quay.io/exampleos/someos:latest" "sha256:aaa" "/cache"
        (getOrCreateDiskImage ⟨true, ⟨true, true, true, true, true, true, true, true⟩⟩
          "quay.io/exampleos/someos:latest" "sha256:aaa" "/cache"
          none).fileAfter).subprocessRan = false := by
  have h := getOrCreateDiskImage_idempotent
    ⟨true, ⟨true, true, true, true, true, true, true, true⟩⟩
    ⟨true, ⟨true, true, true, true, true, true, true, true⟩⟩
    "quay.io/exampleos/someos:latest" "sha256:aaa" "/cache" none
    "/cache/quay.io_exampleos_someos:latest" rfl rfl
  exact ⟨h.2.1, h.2.2.1⟩

/-- C5: on every successful `createDiskImage` the `{imageDigest}` metadata
record is written to the temporary disk before the single rename publishes
it, so the published file carries the completed build's metadata; and on
every error return the file under the final name is unchanged — no reader
of the final name ever observes a partially built disk. -/
theorem createDiskImage_meta_before_publish (env : BuildEnv) (d p : String)
    (t : Option CacheFile) :
    (∀ q, (createDiskImage env d p t).ret = .ok q →
      (createDiskImage env d p t).events = [.setxattr d, .renameToTarget] ∧
      (createDiskImage env d p t).fileAfter = some ⟨.meta d⟩ ∧ q = p) ∧
    (∀ e, (createDiskImage env d p t).ret = .error e →
      (createDiskImage env d p t).fileAfter = t) := by
  constructor
  · intro q hq
    obtain ⟨h1, h2, h3, -⟩ := createDiskImage_ok _ _ _ _ _ hq
    exact ⟨h3, h2, h1⟩
  · intro e he
    exact createDiskImage_error _ _ _ _ _ he

/-- C5 witness: the publication theorem applied to a concrete successful
build — the metadata-write event precedes the rename event and the final
file carries the digest. -/
theorem createDiskImage_meta_before_publish_witness :
    (createDiskImage ⟨true, true, true, true, true, true, true, true⟩
        "sha256:aaa" "/cache/a_b:t" none).events =
      [.setxattr "sha256:aaa", .renameToTarget] ∧
    (createDiskImage ⟨true, true, true, true, true, true, true, true⟩
        "sha256:aaa" "/cache/a_b:t" none).fileAfter =
      some ⟨.meta "sha256:aaa"⟩ := by
  have h := (createDiskImage_meta_before_publish
    ⟨true, true, true, true, true, true, true, true⟩
    "sha256:aaa" "/cache/a_b:t" none).1 "/cache/a_b:t" rfl
  exact ⟨h.1, h.2.1⟩

/-- C9: the transient VM spec built by `vmrun` is fixed at 2 CPUs,
2048 MiB of memory and GUI mode enabled, regardless of the command-line
options; only the debug flag is taken from the user's options. -/
theorem vmrun_spawn_spec_fixed (o : OptionsData) (disk clone : String) :
    (vmrunTail o disk clone).spawnOpts =
      ⟨2, 2048, disk, true, o.vmDebug⟩ := rfl

/-- C10: the cache-path derivation replaces exactly the occurrences of
the character `/` by `_` and keeps every other character verbatim, so the
distinct image names `a/b:t` and `a_b:t` share one cache entry. -/
theorem diskImageName_slash_collision :
    (∀ s : List Char, replaceAllChar s '/' '_' =
      s.map (fun c => if c = '/' then '_' else c)) ∧
    diskImageName "a/b:t" = diskImageName "a_b:t" ∧
    ("a/b:t" : String) ≠ "a_b:t" ∧
    gocPath "/cache" "a/b:t" = gocPath "/cache" "a_b:t" := by
  refine ⟨fun s => replaceAllChar_eq_map s '/' '_', ?_, ?_, ?_⟩ <;> decide

end Bootc

namespace AppleHV

/-! Helper lemmas and claim theorems about the applehv provider. -/

lemma listMachines_ok_of (mms : List MacMachine)
    (h : ∀ m ∈ mms, m.probe ≠ .otherErr) :
    listMachines mms = .ok (mms.map fun m => responseOf m (effectiveState m)) := by
  induction mms with
  | nil => rfl
  | cons m rest ih =>
    have hm := h m (by simp)
    have hrest : ∀ x ∈ rest, x.probe ≠ .otherErr := fun x hx => h x (by simp [hx])
    cases hp : m.probe with
    | ok s => simp [listMachines, resolveState, effectiveState, hp, ih hrest]
    | connRefused => simp [listMachines, resolveState, effectiveState, hp, ih hrest]
    | otherErr => exact absurd hp hm

lemma listMachines_error_of (mms : List MacMachine)
    (h : ∃ m ∈ mms, m.probe = .otherErr) :
    listMachines mms = .error .probeFailed := by
  induction mms with
  | nil => simp at h
  | cons m rest ih =>
    obtain ⟨x, hx, hpx⟩ := h
    rcases List.mem_cons.mp hx with heq | hmem
    · subst heq
      simp [listMachines, resolveState, hpx]
    · cases hp : m.probe with
      | ok s => simp [listMachines, resolveState, hp, ih ⟨x, hmem, hpx⟩]
      | connRefused => simp [listMachines, resolveState, hp, ih ⟨x, hmem, hpx⟩]
      | otherErr => simp [listMachines, resolveState, hp]

/-- C6: the device list constructed by applehv `SpawnTransient` is, in
GUI mode, exactly [entropy, disk, graphics, pointer, keyboard] in that
order, and in headless mode exactly [entropy, disk, console bound to the
host standard streams]; and whenever the call reaches the hypervisor
launch, the device list attached to the VM configuration is exactly the
constructed one, with no reordering. -/
theorem spawnTransient_device_order (opts : Bootc.SpawnTransientOpts)
    (env : SpawnEnv) :
    spawnTransientDevices opts =
      (if opts.gui then
        [.rng, .blk opts.disk, .gpu, .inputPointing, .inputKeyboard]
      else [.rng, .blk opts.disk, .serialStdio]) ∧
    ((spawnTransient env opts).ret = .ok () →
      (spawnTransient env opts).devices = spawnTransientDevices opts) := by
  constructor
  · by_cases h : opts.gui <;>
      simp [spawnTransientDevices, getBasicDevices, getDebugDevices, h]
  · intro h
    unfold spawnTransient at h ⊢
    split_ifs at h ⊢
    all_goals cases env.run <;> rfl

/-- C6 witness: the device-order theorem applied at a concrete GUI-mode
spawn that reaches the hypervisor launch. -/
theorem spawnTransient_device_order_witness :
    (spawnTransient ⟨true, true, true, true, true, .exited 0⟩
        ⟨2, 2048, "/cache/disk", true, false⟩).devices =
      spawnTransientDevices ⟨2, 2048, "/cache/disk", true, false⟩ ∧
    spawnTransientDevices ⟨2, 2048, "/cache/disk", true, false⟩ =
      [.rng, .blk "/cache/disk", .gpu, .inputPointing, .inputKeyboard] := by
  have h := spawnTransient_device_order ⟨2, 2048, "/cache/disk", true, false⟩
    ⟨true, true, true, true, true, .exited 0⟩
  exact ⟨h.2 rfl, by simpa using h.1⟩

/-- C7: during `List`, a machine whose probe refuses connection is mapped
to the Stopped state and the listing continues; if every machine probes
without a fatal error the listing succeeds with one entry per machine in
order, while any machine whose probe fails otherwise makes `List` return
the error and no listing result. -/
theorem list_probe_error_policy (mms : List MacMachine) :
    ((∀ m ∈ mms, m.probe ≠ .otherErr) →
      listMachines mms = .ok (mms.map fun m => responseOf m (effectiveState m))) ∧
    ((∃ m ∈ mms, m.probe = .otherErr) →
      listMachines mms = .error .probeFailed) ∧
    (∀ m : MacMachine, m.probe = .connRefused →
      responseOf m (effectiveState m) = ⟨m.name, false, false⟩) := by
  refine ⟨listMachines_ok_of mms, listMachines_error_of mms, ?_⟩
  intro m h
  simp [responseOf, effectiveState, h]

/-- C7 witness: the probe-error policy applied to a concrete listing in
which one machine refuses connection (listed as Stopped) and to a
concrete listing in which one machine's probe fails fatally (listing
aborted). -/
theorem list_probe_error_policy_witness :
    listMachines [⟨"vm1", .connRefused⟩, ⟨"vm2", .ok .running⟩] =
      .ok [⟨"vm1", false, false⟩, ⟨"vm2", true, false⟩] ∧
    listMachines [⟨"vm1", .connRefused⟩, ⟨"vm3", .otherErr⟩] =
      .error .probeFailed := by
  constructor
  · have h := (list_probe_error_policy
      [⟨"vm1", .connRefused⟩, ⟨"vm2", .ok .running⟩]).1 (by decide)
    simpa [responseOf, effectiveState] using h
  · exact (list_probe_error_policy [⟨"vm1", .connRefused⟩, ⟨"vm3", .otherErr⟩]).2.1
      ⟨⟨"vm3", .otherErr⟩, by simp, rfl⟩

/-- C8: when applehv `SpawnTransient` reaches the hypervisor launch and
the process starts, the call waits for the process to exit and returns no
error even when the exit code is non-zero; the non-zero exit is only
logged. -/
theorem spawnTransient_nonzero_exit_not_escalated (env : SpawnEnv)
    (opts : Bootc.SpawnTransientOpts) (code : Nat)
    (hc : env.configOk = true) (hmt : env.mkdirTempOk = true)
    (hme : env.mkdirEfiOk = true) (hf : env.findVfkitOk = true)
    (hcmd : env.cmdOk = true) (hr : env.run = .exited code) :
    (spawnTransient env opts).ret = .ok () ∧
    (spawnTransient env opts).waitedForExit = true ∧
    (code ≠ 0 → (spawnTransient env opts).loggedRunError = true) := by
  have hgoal : (spawnTransient env opts).ret = .ok () ∧
      (spawnTransient env opts).waitedForExit = true ∧
      (spawnTransient env opts).loggedRunError = (code != 0) := by
    unfold spawnTransient
    simp [hc, hmt, hme, hf, hcmd, hr]
  refine ⟨hgoal.1, hgoal.2.1, fun hcode => ?_⟩
  rw [hgoal.2.2]
  simpa using hcode

/-- C8 witness: the non-escalation theorem applied at a concrete spawn
whose hypervisor process exits with code 1. -/
theorem spawnTransient_nonzero_exit_not_escalated_witness :
    (spawnTransient ⟨true, true, true, true, true, .exited 1⟩
        ⟨2, 2048, "/cache/disk", true, false⟩).ret = .ok () ∧
    (spawnTransient ⟨true, true, true, true, true, .exited 1⟩
        ⟨2, 2048, "/cache/disk", true, false⟩).waitedForExit = true ∧
    (spawnTransient ⟨true, true, true, true, true, .exited 1⟩
        ⟨2, 2048, "/cache/disk", true, false⟩).loggedRunError = true := by
  have h := spawnTransient_nonzero_exit_not_escalated
    ⟨true, true, true, true, true, .exited 1⟩
    ⟨2, 2048, "/cache/disk", true, false⟩ 1 rfl rfl rfl rfl rfl rfl
  exact ⟨h.1, h.2.1, h.2.2 (by decide)⟩

end AppleHV
